import Mathlib

/-!
Shallow embedding of the `rxing` Python adapter layer
(`python/rxing/__init__.py`): the type-directed decode dispatcher, the
pixel-buffer canonicalization via Pillow, the numpy-array validation, the
encode wrapper with its signature defaults, and the rendering operations
attached to the engine's `BitMatrix` artifact.

The native engine (`rxing_lib`, a Rust extension) and the Pillow image
library are external collaborators.  The engine is modelled abstractly as a
record of entry points; Pillow's grayscale conversion and byte extraction
are modelled from their documented, deterministic semantics (ITU-R 601-2
luma as implemented by Pillow, row-major `tobytes`).
-/

set_option autoImplicit false

namespace Rxing

/-- A hint value in the options mapping: a plain string or a list of
format names (the shape carried by the format-restriction key). -/
inductive HintValue where
  | str (s : String)
  | formats (names : List String)
deriving DecidableEq, Repr

/-- The caller-supplied options mapping, an open key/value association. -/
abbrev Hints := List (String × HintValue)

/-- One pixel of an in-memory image: single-channel luma, RGB, or RGBA. -/
inductive Pixel where
  | one (v : Nat)
  | three (r g b : Nat)
  | four (r g b a : Nat)
deriving DecidableEq, Repr

/-- The raw channel bytes of a pixel, in channel order. -/
def Pixel.bytes : Pixel → List Nat
  | .one v => [v]
  | .three r g b => [r, g, b]
  | .four r g b a => [r, g, b, a]

/-- All channel samples of the pixel fit in one byte. -/
def Pixel.bounded (p : Pixel) : Prop := ∀ b ∈ p.bytes, b < 256

/-- Pillow's ITU-R 601-2 luma transform as implemented in `convert.c`:
`L = (R * 19595 + G * 38470 + B * 7471 + 0x8000) >> 16`. -/
def luma (r g b : Nat) : Nat := (r * 19595 + g * 38470 + b * 7471 + 32768) / 65536

/-- Reduce a pixel to its single luma sample; the alpha channel is ignored,
as Pillow's RGBA-to-L conversion does. -/
def Pixel.toLuma : Pixel → Nat
  | .one v => v
  | .three r g b => luma r g b
  | .four r g b _ => luma r g b

/-- An in-memory Pillow image: a mode tag, pixel dimensions, and a pixel
accessor (row-major addressing is `px x y` at column `x`, row `y`). -/
structure PILImage where
  mode : String
  width : Nat
  height : Nat
  px : Nat → Nat → Pixel

/-- Well-formedness of an externally supplied image: a mode-`L` image
really is single-channel, and every channel sample fits in a byte. -/
def PILImage.WF (img : PILImage) : Prop :=
  (img.mode = "L" → ∀ x y, ∃ v, img.px x y = .one v) ∧
  (∀ x y, (img.px x y).bounded)

/-- Pillow `PIL.Image.convert`: `"L"` performs the deterministic luma reduction
(a no-op on already single-channel pixels); `"1"` thresholds the luma at
128 into pure black (0) and white (255).  (Pillow's `convert('1')`
dithers by default, which coincides with plain thresholding on the
two-level images this adapter produces.)  Any other mode tag is not used
by the adapter and is modelled as the identity. -/
def PILImage.convert (img : PILImage) (m : String) : PILImage :=
  if m = "L" then
    { mode := "L", width := img.width, height := img.height,
      px := fun x y => .one (img.px x y).toLuma }
  else if m = "1" then
    { mode := "1", width := img.width, height := img.height,
      px := fun x y => .one (if 128 ≤ (img.px x y).toLuma then 255 else 0) }
  else img

/-- Pillow `PIL.Image.tobytes`: the channel bytes of every pixel, row-major, with
no stride padding. -/
def PILImage.tobytes (img : PILImage) : List Nat :=
  ((List.range img.height).map fun y =>
    ((List.range img.width).map fun x => (img.px x y).bytes).flatten).flatten

/-- Pillow `PIL.Image.new` with a constant fill value (used only for the
zero-size mode-`1` image). -/
def PILImage.new (m : String) (w h : Nat) : PILImage :=
  { mode := m, width := w, height := h, px := fun _ _ => .one 0 }

/-- A numpy array: element dtype tag, shape, and row-major flattened data. -/
structure NDArray where
  dtype : String
  shape : List Nat
  data : List Nat

/-- The rank `numpy.ndarray.ndim`: the rank of the array. -/
def NDArray.ndim (a : NDArray) : Nat := a.shape.length

/-- Well-formedness of a uint8 array: every element fits in a byte. -/
def NDArray.WF (a : NDArray) : Prop := ∀ v ∈ a.data, v < 256

/-- Pillow `PIL.Image.fromarray` on a 2-D `(h, w)` uint8 array with mode `L`. -/
def fromarray2d (a : NDArray) : PILImage :=
  { mode := "L",
    width := a.shape.getD 1 0,
    height := a.shape.getD 0 0,
    px := fun x y => .one (a.data.getD (y * a.shape.getD 1 0 + x) 0) }

/-- Pillow `PIL.Image.fromarray` on a 3-D `(h, w, c)` uint8 array with mode
`RGB` (c = 3) or `RGBA` (c = 4). -/
def fromarray3d (a : NDArray) : PILImage :=
  if a.shape.getD 2 0 = 3 then
    { mode := "RGB",
      width := a.shape.getD 1 0,
      height := a.shape.getD 0 0,
      px := fun x y =>
        .three (a.data.getD ((y * a.shape.getD 1 0 + x) * 3) 0)
               (a.data.getD ((y * a.shape.getD 1 0 + x) * 3 + 1) 0)
               (a.data.getD ((y * a.shape.getD 1 0 + x) * 3 + 2) 0) }
  else
    { mode := "RGBA",
      width := a.shape.getD 1 0,
      height := a.shape.getD 0 0,
      px := fun x y =>
        .four (a.data.getD ((y * a.shape.getD 1 0 + x) * 4) 0)
              (a.data.getD ((y * a.shape.getD 1 0 + x) * 4 + 1) 0)
              (a.data.getD ((y * a.shape.getD 1 0 + x) * 4 + 2) 0)
              (a.data.getD ((y * a.shape.getD 1 0 + x) * 4 + 3) 0) }

/-- The admissible runtime types of `decode`'s `source` argument, plus a
constructor for every other Python value. -/
inductive Source where
  | str (path : String)
  | bytes (b : List Nat)
  | pil (img : PILImage)
  | nparray (a : NDArray)
  | other

/-- The three engine decode entry points, with the arguments handed over. -/
inductive EngineCall where
  | fromFilePath (path : String) (hints : Hints)
  | imageBytes (b : List Nat) (hints : Hints)
  | lumaPixels (buf : List Nat) (width height : Nat) (hints : Hints)
deriving DecidableEq

/-- Outcome of the dispatch step of `decode`: either an engine entry point
is invoked with concrete arguments, or a local `TypeError` is raised
before the engine is ever reached. -/
inductive DecodeOutcome where
  | engine (c : EngineCall)
  | typeError (msg : String)
deriving DecidableEq

/-- The `TypeError` message for a numpy dtype mismatch. -/
def dtypeErrorMsg : String := "NumPy array must be of dtype uint8."

/-- The `TypeError` message for a numpy rank/channel-count mismatch. -/
def shapeErrorMsg : String := "NumPy array must be 2D (grayscale) or 3D (RGB/RGBA)."

/-- The `TypeError` message for an unsupported source type. -/
def unsupportedTypeMsg : String :=
  "Unsupported source type. Expected str, bytes, PIL.Image.Image, or numpy.ndarray."

/-- The mode normalization the PIL branch of `decode` performs: convert
to mode `L` when the mode is outside `{L, RGB, RGBA}`, convert to `L`
when it is `RGB` or `RGBA`, and keep an `L` image as-is. -/
def pilCanon (s : PILImage) : PILImage :=
  if ¬ (s.mode = "L" ∨ s.mode = "RGB" ∨ s.mode = "RGBA") then s.convert "L"
  else if s.mode ≠ "L" then s.convert "L"
  else s

/-- The dispatch logic of `rxing.decode`, translated branch for branch
from `python/rxing/__init__.py`.  A `str` goes to the file-path entry
point, `bytes` to the byte-buffer entry point; a PIL image is converted
to mode `L` unless already `L` and its row-major bytes extracted; a
numpy array is validated (dtype first, then rank/channels) and reduced
through Pillow to a luma buffer; anything else raises `TypeError`. -/
def decode (source : Source) (hints : Hints) : DecodeOutcome :=
  match source with
  | .str path => .engine (.fromFilePath path hints)
  | .bytes b => .engine (.imageBytes b hints)
  | .pil s =>
      let img := pilCanon s
      .engine (.lumaPixels img.tobytes img.width img.height hints)
  | .nparray a =>
      if a.dtype ≠ "uint8" then .typeError dtypeErrorMsg
      else if a.ndim = 2 then
        let img := fromarray2d a
        .engine (.lumaPixels img.tobytes img.width img.height hints)
      else if a.ndim = 3 ∧ (a.shape.getD 2 0 = 3 ∨ a.shape.getD 2 0 = 4) then
        let img := (fromarray3d a).convert "L"
        .engine (.lumaPixels img.tobytes img.width img.height hints)
      else .typeError shapeErrorMsg
  | .other => .typeError unsupportedTypeMsg

/-- Modelled from the spec: the engine's Decode Result, "an immutable
value with at least a text payload, a format tag, and geometric locator
points" (the concrete type lives in the Rust extension, not under the
Python sources). -/
structure RXingResult where
  text : String
  barcode_format : String
  points : List (Int × Int)
deriving DecidableEq, Repr

/-- Modelled from the spec: the engine's Module Grid Artifact, a
`width × height` boolean grid with `data[y][x]` row-major and `true` for
a dark module (the concrete type lives in the Rust extension). -/
structure BitMatrix where
  width : Nat
  height : Nat
  data : List (List Bool)
deriving DecidableEq, Repr

/-- The module at column `x`, row `y` (Python `self.data[y][x]`). -/
def BitMatrix.at (m : BitMatrix) (x y : Nat) : Bool :=
  (m.data.getD y []).getD x false

/-- The spec's Module Grid invariant: `data` has exactly `height` rows of
exactly `width` booleans each. -/
def BitMatrix.WF (m : BitMatrix) : Prop :=
  m.data.length = m.height ∧ ∀ row ∈ m.data, row.length = m.width

/-- The external engine, abstract: its four entry points, each either
returning a result or failing with an engine-specific diagnostic. -/
structure Engine where
  decodeFromFilePath : String → Hints → Except String RXingResult
  decodeImageBytes : List Nat → Hints → Except String RXingResult
  decodeLumaPixels : List Nat → Nat → Nat → Hints → Except String RXingResult
  encode : String → String → Nat → Nat → Hints → Except String BitMatrix

/-- Interpret a dispatched engine call against a concrete engine. -/
def runCall (e : Engine) (c : EngineCall) : Except String RXingResult :=
  match c with
  | .fromFilePath p h => e.decodeFromFilePath p h
  | .imageBytes b h => e.decodeImageBytes b h
  | .lumaPixels buf w h hints => e.decodeLumaPixels buf w h hints

/-- End-to-end `rxing.decode` against a concrete engine: dispatch, then
run the selected entry point; a local `TypeError` never reaches the
engine. -/
def decodeRun (e : Engine) (s : Source) (hints : Hints) : Except String RXingResult :=
  match decode s hints with
  | .engine c => runCall e c
  | .typeError msg => .error msg

/-- The wrapper `rxing.encode(data, format, width, height, hints_dict)`: a `None`
hints dictionary becomes `{}`, then the engine's generation entry point
is invoked with the arguments as given. -/
def encode (e : Engine) (data format : String) (width height : Nat)
    (hints_dict : Option Hints) : Except String BitMatrix :=
  e.encode data format width height (hints_dict.getD [])

/-- The call `rxing.encode(data, format)` with no explicit size or hints
arguments: the signature of `encode` supplies `width = 29`, `height = 29`
and `hints_dict = None` as defaults. -/
def encodeDefault (e : Engine) (data format : String) : Except String BitMatrix :=
  encode e data format 29 29 none

/-- Method `BitMatrix.to_pil_image` (`_bitmatrix_to_pil_image`): a zero-size
mode-`1` image for a degenerate grid; otherwise a mode-`L` image with a
`true` module painted 0 (black) and a `false` module painted 255
(white), converted to mode `1`. -/
def bitmatrix_to_pil_image (m : BitMatrix) : PILImage :=
  if m.width = 0 ∨ m.height = 0 then PILImage.new "1" 0 0
  else
    let imgL : PILImage :=
      { mode := "L", width := m.width, height := m.height,
        px := fun x y => .one (if m.at x y then 0 else 255) }
    imgL.convert "1"

/-- Method `BitMatrix.to_numpy_array` (`_bitmatrix_to_numpy_array`): the grid as
a boolean `(height, width)` array; modelled as the row-major data. -/
def bitmatrix_to_numpy_array (m : BitMatrix) : List (List Bool) := m.data

/-- A file write requested by `BitMatrix.save`: path, rendered image, and
the image-container format actually passed to Pillow. -/
structure SaveCall where
  path : String
  image : PILImage
  format : String

/-- Method `BitMatrix.save` (`_bitmatrix_save`): render to a displayable image
and hand it to Pillow's `save` with the uppercased format name, which
defaults to `"PNG"`.  The write itself is Pillow's. -/
def bitmatrix_save (m : BitMatrix) (file_path : String) (image_format : String) : SaveCall :=
  ⟨file_path, bitmatrix_to_pil_image m, image_format.toUpper⟩

/-- The placeholder `__str__` renders for an empty grid. -/
def emptyMatrixStr : String := "<BitMatrix (empty)>"

/-- Method `BitMatrix.__str__` (`_bitmatrix_str`): the placeholder for a
degenerate grid; otherwise one string per row, `"██"` for a `true`
module and `"  "` for a `false` one, joined by newlines. -/
def bitmatrix_str (m : BitMatrix) : String :=
  if m.width = 0 ∨ m.height = 0 then emptyMatrixStr
  else
    String.intercalate "\n" ((List.range m.height).map fun y =>
      String.join ((List.range m.width).map fun x =>
        if m.at x y then "██" else "  "))

/-- The luma buffer of the rendered image of a module grid: row-major,
0 for a dark (`true`) module and 255 for a light (`false`) one. -/
def lumaRender (m : BitMatrix) : List Nat :=
  ((List.range m.height).map fun y =>
    (List.range m.width).map fun x => if m.at x y then 0 else 255).flatten

/-- Modelled from the spec: the hints-translation step of the native
binding (absent from the Python sources).  The well-known
format-restriction key `POSSIBLE_FORMATS` has each named format checked
against the engine's known format enumeration; the first unknown name is
reported.  Other keys yield nothing. -/
def firstUnknownFormat (knownFormats : List String) (hints : Hints) : Option String :=
  hints.findSome? fun kv =>
    if kv.1 = "POSSIBLE_FORMATS" then
      match kv.2 with
      | .str s => if knownFormats.contains s then none else some s
      | .formats names => names.find? fun n => !(knownFormats.contains n)
    else none

/-- Modelled from the spec: the hints translator.  An unknown format name
under the format-restriction key fails fast with a descriptive error
before the hints reach the engine; otherwise the mapping is forwarded
verbatim. -/
def translateHints (knownFormats : List String) (hints : Hints) : Except String Hints :=
  match firstUnknownFormat knownFormats hints with
  | some n => .error ("Unknown barcode format: " ++ n)
  | none => .ok hints

/-! ### Helper lemmas -/

theorem flatten_map_singleton {α β : Type} (l : List α) (f : α → β) :
    (l.map fun a => [f a]).flatten = l.map f := by
  induction l with
  | nil => rfl
  | cons a t ih => simp [ih]

theorem luma_lt_256 {r g b : Nat} (hr : r < 256) (hg : g < 256) (hb : b < 256) :
    luma r g b < 256 := by
  unfold luma
  rw [Nat.div_lt_iff_lt_mul (by norm_num)]
  omega

theorem Pixel.toLuma_lt_256 {p : Pixel} (h : p.bounded) : p.toLuma < 256 := by
  cases p with
  | one v => exact h v (by simp [Pixel.bytes])
  | three r g b =>
      exact luma_lt_256 (h r (by simp [Pixel.bytes])) (h g (by simp [Pixel.bytes]))
        (h b (by simp [Pixel.bytes]))
  | four r g b a =>
      exact luma_lt_256 (h r (by simp [Pixel.bytes])) (h g (by simp [Pixel.bytes]))
        (h b (by simp [Pixel.bytes]))

theorem List.getD_lt_256 (l : List Nat) (h : ∀ v ∈ l, v < 256) (i : Nat) :
    l.getD i 0 < 256 := by
  induction l generalizing i with
  | nil => simp [List.getD]
  | cons a t ih =>
      cases i with
      | zero => simpa using h a (by simp)
      | succ j => simpa using ih (fun v hv => h v (by simp [hv])) j

theorem tobytes_spec (img : PILImage)
    (h1 : ∀ x y, ∃ v, img.px x y = .one v ∧ v < 256) :
    img.tobytes.length = img.width * img.height ∧ ∀ b ∈ img.tobytes, b < 256 := by
  constructor
  · unfold PILImage.tobytes
    rw [List.length_flatten, List.map_map]
    have hrow : ∀ y,
        (((List.range img.width).map fun x => (img.px x y).bytes)).flatten.length
          = img.width := by
      intro y
      rw [List.length_flatten, List.map_map]
      have hcg : ∀ x ∈ List.range img.width,
          (List.length ∘ fun x => (img.px x y).bytes) x = (fun _ => 1) x := by
        intro x _
        obtain ⟨v, hv, _⟩ := h1 x y
        simp [hv, Pixel.bytes]
      rw [List.map_congr_left hcg]
      simp [List.map_const']
    have hcg2 : ∀ y ∈ List.range img.height,
        ((List.length ∘ fun y =>
          (((List.range img.width).map fun x => (img.px x y).bytes)).flatten)) y
          = (fun _ => img.width) y := by
      intro y _
      exact hrow y
    rw [List.map_congr_left hcg2]
    simp [List.map_const', Nat.mul_comm]
  · intro b hb
    unfold PILImage.tobytes at hb
    rw [List.mem_flatten] at hb
    obtain ⟨row, hrow, hbrow⟩ := hb
    rw [List.mem_map] at hrow
    obtain ⟨y, _, hy⟩ := hrow
    rw [← hy, List.mem_flatten] at hbrow
    obtain ⟨cell, hcell, hbcell⟩ := hbrow
    rw [List.mem_map] at hcell
    obtain ⟨x, _, hx⟩ := hcell
    obtain ⟨v, hv, hvlt⟩ := h1 x y
    rw [← hx, hv] at hbcell
    simp [Pixel.bytes] at hbcell
    exact hbcell ▸ hvlt

theorem pilCanon_width (s : PILImage) : (pilCanon s).width = s.width := by
  unfold pilCanon PILImage.convert
  split
  · simp
  · split
    · simp
    · simp

theorem pilCanon_height (s : PILImage) : (pilCanon s).height = s.height := by
  unfold pilCanon PILImage.convert
  split
  · simp
  · split
    · simp
    · simp

theorem convertL_px (s : PILImage) (x y : Nat) :
    (s.convert "L").px x y = .one (s.px x y).toLuma := by
  simp [PILImage.convert]

theorem pilCanon_px (s : PILImage) (hs : s.WF) (x y : Nat) :
    ∃ v, (pilCanon s).px x y = .one v ∧ v < 256 := by
  unfold pilCanon
  by_cases hmode : s.mode = "L" ∨ s.mode = "RGB" ∨ s.mode = "RGBA"
  · rw [if_neg (not_not_intro hmode)]
    by_cases hL : s.mode = "L"
    · rw [if_neg (by simp [hL])]
      obtain ⟨v, hv⟩ := hs.1 hL x y
      refine ⟨v, hv, ?_⟩
      have hb := hs.2 x y
      rw [hv] at hb
      exact hb v (by simp [Pixel.bytes])
    · rw [if_pos hL, convertL_px]
      exact ⟨(s.px x y).toLuma, rfl, Pixel.toLuma_lt_256 (hs.2 x y)⟩
  · rw [if_pos hmode, convertL_px]
    exact ⟨(s.px x y).toLuma, rfl, Pixel.toLuma_lt_256 (hs.2 x y)⟩

theorem fromarray2d_px (a : NDArray) (ha : a.WF) (x y : Nat) :
    ∃ v, (fromarray2d a).px x y = .one v ∧ v < 256 :=
  ⟨_, rfl, List.getD_lt_256 a.data ha _⟩

theorem fromarray3d_width (a : NDArray) : (fromarray3d a).width = a.shape.getD 1 0 := by
  unfold fromarray3d
  split
  · rfl
  · rfl

theorem fromarray3d_height (a : NDArray) : (fromarray3d a).height = a.shape.getD 0 0 := by
  unfold fromarray3d
  split
  · rfl
  · rfl

theorem fromarray3d_bounded (a : NDArray) (ha : a.WF) (x y : Nat) :
    ((fromarray3d a).px x y).bounded := by
  unfold fromarray3d
  split
  · intro b hb
    simp only [Pixel.bytes, List.mem_cons, List.not_mem_nil, or_false] at hb
    rcases hb with h | h | h
    all_goals rw [h]; exact List.getD_lt_256 a.data ha _
  · intro b hb
    simp only [Pixel.bytes, List.mem_cons, List.not_mem_nil, or_false] at hb
    rcases hb with h | h | h | h
    all_goals rw [h]; exact List.getD_lt_256 a.data ha _

theorem fromarray3dL_px (a : NDArray) (ha : a.WF) (x y : Nat) :
    ∃ v, ((fromarray3d a).convert "L").px x y = .one v ∧ v < 256 := by
  rw [convertL_px]
  exact ⟨_, rfl, Pixel.toLuma_lt_256 (fromarray3d_bounded a ha x y)⟩

theorem to_pil_image_pos (m : BitMatrix) (h : ¬ (m.width = 0 ∨ m.height = 0)) :
    bitmatrix_to_pil_image m =
      { mode := "1", width := m.width, height := m.height,
        px := fun x y => .one (if m.at x y then 0 else 255) } := by
  unfold bitmatrix_to_pil_image
  rw [if_neg h]
  show PILImage.convert _ "1" = _
  unfold PILImage.convert
  rw [if_neg (by decide), if_pos rfl]
  congr 1
  funext x y
  cases hmat : m.at x y with
  | true => simp [Pixel.toLuma, hmat]
  | false => simp [Pixel.toLuma, hmat]

theorem pilCanon_mode1 (s : PILImage) (hs : s.mode = "1") : pilCanon s = s.convert "L" := by
  unfold pilCanon
  have hcond : ¬ (s.mode = "L" ∨ s.mode = "RGB" ∨ s.mode = "RGBA") := by
    rw [hs]
    decide
  rw [if_pos hcond]

theorem pilCanon_to_pil_image (m : BitMatrix) (h : ¬ (m.width = 0 ∨ m.height = 0)) :
    pilCanon (bitmatrix_to_pil_image m) =
      { mode := "L", width := m.width, height := m.height,
        px := fun x y => .one (if m.at x y then 0 else 255) } := by
  rw [pilCanon_mode1 _ (by rw [to_pil_image_pos m h]), to_pil_image_pos m h]
  unfold PILImage.convert
  rw [if_pos rfl]
  rfl

theorem tobytes_explicit (img : PILImage) (f : Nat → Nat → Nat)
    (hpx : ∀ x y, img.px x y = .one (f x y)) :
    img.tobytes =
      ((List.range img.height).map fun y =>
        (List.range img.width).map fun x => f x y).flatten := by
  unfold PILImage.tobytes
  congr 1
  apply List.map_congr_left
  intro y _
  have hinner : ((List.range img.width).map fun x => (img.px x y).bytes)
      = ((List.range img.width).map fun x => [f x y]) :=
    List.map_congr_left (fun x _ => by rw [hpx x y]; rfl)
  rw [hinner]
  exact flatten_map_singleton _ _

theorem decode_bitmatrix_render (m : BitMatrix) (h : ¬ (m.width = 0 ∨ m.height = 0))
    (hints : Hints) :
    decode (.pil (bitmatrix_to_pil_image m)) hints =
      .engine (.lumaPixels (lumaRender m) m.width m.height hints) := by
  show DecodeOutcome.engine
      (.lumaPixels (pilCanon (bitmatrix_to_pil_image m)).tobytes
        (pilCanon (bitmatrix_to_pil_image m)).width
        (pilCanon (bitmatrix_to_pil_image m)).height hints) = _
  rw [pilCanon_to_pil_image m h]
  rw [tobytes_explicit _ _ (fun _ _ => rfl)]
  rfl

/-! ### Claim theorems -/

/-- C1: `decode` dispatches a string to the engine's file-path entry
point, bytes to the byte-buffer entry point, a PIL image or an admissible
numpy array to the raw-luma entry point with a locally canonicalized
`(bytes, width, height, hints)` tuple, and raises a local `TypeError`
(no engine entry point) on any other input type. -/
theorem C1_decode_dispatch (p : String) (b : List Nat) (img : PILImage) (a : NDArray)
    (hints : Hints) (hdt : a.dtype = "uint8")
    (hsh : a.ndim = 2 ∨ (a.ndim = 3 ∧ (a.shape.getD 2 0 = 3 ∨ a.shape.getD 2 0 = 4))) :
    decode (.str p) hints = .engine (.fromFilePath p hints) ∧
    decode (.bytes b) hints = .engine (.imageBytes b hints) ∧
    (∃ buf, decode (.pil img) hints = .engine (.lumaPixels buf img.width img.height hints)) ∧
    (∃ buf w h, decode (.nparray a) hints = .engine (.lumaPixels buf w h hints)) ∧
    decode .other hints = .typeError unsupportedTypeMsg := by
  refine ⟨rfl, rfl, ?_, ?_, rfl⟩
  · refine ⟨(pilCanon img).tobytes, ?_⟩
    show DecodeOutcome.engine
      (.lumaPixels (pilCanon img).tobytes (pilCanon img).width (pilCanon img).height hints) = _
    rw [pilCanon_width, pilCanon_height]
  · simp only [decode]
    rw [if_neg (not_not_intro hdt)]
    rcases hsh with h2 | ⟨h3, hc⟩
    · rw [if_pos h2]
      exact ⟨_, _, _, rfl⟩
    · rw [if_neg (by omega), if_pos ⟨h3, hc⟩]
      exact ⟨_, _, _, rfl⟩

/-- Witness for C1 at concrete inputs: a path, a byte list, a 1×1 `L`
image and a 1×1×3 RGB uint8 array. -/
theorem C1_decode_dispatch_witness :
    (NDArray.mk "uint8" [1, 1, 3] [10, 20, 30]).dtype = "uint8" ∧
    (decode (.str "qr.png") [] = .engine (.fromFilePath "qr.png" []) ∧
     decode (.bytes [137, 80]) [] = .engine (.imageBytes [137, 80] []) ∧
     (∃ buf, decode (.pil (PILImage.mk "L" 1 1 fun _ _ => .one 7)) [] =
        .engine (.lumaPixels buf 1 1 [])) ∧
     (∃ buf w h, decode (.nparray (NDArray.mk "uint8" [1, 1, 3] [10, 20, 30])) [] =
        .engine (.lumaPixels buf w h [])) ∧
     decode .other [] = .typeError unsupportedTypeMsg) :=
  ⟨rfl, C1_decode_dispatch "qr.png" [137, 80] (PILImage.mk "L" 1 1 fun _ _ => .one 7)
    (NDArray.mk "uint8" [1, 1, 3] [10, 20, 30]) [] rfl (Or.inr ⟨rfl, Or.inl rfl⟩)⟩

/-- C2: a numpy array whose dtype is not uint8 raises the dtype
`TypeError`; a uint8 array whose rank/trailing-channel count is outside
{2-D; 3-D with 3 or 4 channels} raises the shape `TypeError`; the two
messages are distinct, and in both cases the outcome is a local error,
never an engine call. -/
theorem C2_numpy_validation (a : NDArray) (hints : Hints) :
    (a.dtype ≠ "uint8" → decode (.nparray a) hints = .typeError dtypeErrorMsg) ∧
    (a.dtype = "uint8" → a.ndim ≠ 2 →
      ¬ (a.ndim = 3 ∧ (a.shape.getD 2 0 = 3 ∨ a.shape.getD 2 0 = 4)) →
      decode (.nparray a) hints = .typeError shapeErrorMsg) ∧
    dtypeErrorMsg ≠ shapeErrorMsg := by
  refine ⟨?_, ?_, by decide⟩
  · intro hne
    simp only [decode]
    rw [if_pos hne]
  · intro hdt h2 h3
    simp only [decode]
    rw [if_neg (not_not_intro hdt), if_neg h2, if_neg h3]

/-- Witness for C2: a float array hits the dtype error; a uint8 array of
rank 1 hits the shape error. -/
theorem C2_numpy_validation_witness :
    decode (.nparray (NDArray.mk "float64" [2, 2] [0, 0, 0, 0])) [] =
      .typeError dtypeErrorMsg ∧
    decode (.nparray (NDArray.mk "uint8" [4] [0, 0, 0, 0])) [] =
      .typeError shapeErrorMsg :=
  ⟨(C2_numpy_validation (NDArray.mk "float64" [2, 2] [0, 0, 0, 0]) []).1 (by decide),
   (C2_numpy_validation (NDArray.mk "uint8" [4] [0, 0, 0, 0]) []).2.1 rfl (by decide)
     (by decide)⟩

/-- C6: `to_pil_image` on a positive-size module grid is a mode-`1`
image of size `(width, height)` with a `true` module painted 0 (black)
and a `false` module painted 255 (white); a grid with zero width or
height yields the zero-size image instead of failing. -/
theorem C6_to_pil_image (m : BitMatrix) :
    (0 < m.width → 0 < m.height →
      (bitmatrix_to_pil_image m).mode = "1" ∧
      (bitmatrix_to_pil_image m).width = m.width ∧
      (bitmatrix_to_pil_image m).height = m.height ∧
      ∀ x y, (bitmatrix_to_pil_image m).px x y = .one (if m.at x y then 0 else 255)) ∧
    (m.width = 0 ∨ m.height = 0 →
      (bitmatrix_to_pil_image m).width = 0 ∧ (bitmatrix_to_pil_image m).height = 0) := by
  constructor
  · intro hw hh
    rw [to_pil_image_pos m (by omega)]
    exact ⟨rfl, rfl, rfl, fun x y => rfl⟩
  · intro hz
    unfold bitmatrix_to_pil_image
    rw [if_pos hz]
    exact ⟨rfl, rfl⟩

/-- Witness for C6: a 2×1 grid with one dark and one light module, and a
0×3 degenerate grid. -/
theorem C6_to_pil_image_witness :
    ((bitmatrix_to_pil_image (BitMatrix.mk 2 1 [[true, false]])).mode = "1" ∧
     (bitmatrix_to_pil_image (BitMatrix.mk 2 1 [[true, false]])).width = 2 ∧
     (bitmatrix_to_pil_image (BitMatrix.mk 2 1 [[true, false]])).height = 1 ∧
     ∀ x y, (bitmatrix_to_pil_image (BitMatrix.mk 2 1 [[true, false]])).px x y =
       .one (if (BitMatrix.mk 2 1 [[true, false]]).at x y then 0 else 255)) ∧
    ((bitmatrix_to_pil_image (BitMatrix.mk 0 3 [])).width = 0 ∧
     (bitmatrix_to_pil_image (BitMatrix.mk 0 3 [])).height = 0) :=
  ⟨(C6_to_pil_image (BitMatrix.mk 2 1 [[true, false]])).1 (by decide) (by decide),
   (C6_to_pil_image (BitMatrix.mk 0 3 [])).2 (Or.inl rfl)⟩

/-- C7: `__str__` of a positive-size module grid is the height row
strings joined by newlines, each row showing a two-character block glyph
for a `true` module and two spaces for a `false` one; a degenerate grid
yields the non-empty one-line placeholder. -/
theorem C7_bitmatrix_str (m : BitMatrix) :
    (0 < m.width → 0 < m.height →
      bitmatrix_str m =
        String.intercalate "\n" ((List.range m.height).map fun y =>
          String.join ((List.range m.width).map fun x =>
            if m.at x y then "██" else "  ")) ∧
      ((List.range m.height).map fun y =>
          String.join ((List.range m.width).map fun x =>
            if m.at x y then "██" else "  ")).length = m.height ∧
      ("██" : String).length = 2 ∧ ("  " : String).length = 2) ∧
    (m.width = 0 ∨ m.height = 0 →
      bitmatrix_str m = emptyMatrixStr ∧ emptyMatrixStr ≠ "" ∧
      ∀ c ∈ emptyMatrixStr.toList, c ≠ '\n') := by
  constructor
  · intro hw hh
    refine ⟨?_, by simp, by decide, by decide⟩
    unfold bitmatrix_str
    rw [if_neg (by omega)]
  · intro hz
    unfold bitmatrix_str
    rw [if_pos hz]
    exact ⟨rfl, by decide, by decide⟩

/-- Witness for C7: a 1×1 dark grid renders as one block glyph row; the
0×0 grid renders the placeholder. -/
theorem C7_bitmatrix_str_witness :
    bitmatrix_str (BitMatrix.mk 1 1 [[true]]) =
      String.intercalate "\n" ((List.range 1).map fun y =>
        String.join ((List.range 1).map fun x =>
          if (BitMatrix.mk 1 1 [[true]]).at x y then "██" else "  ")) ∧
    bitmatrix_str (BitMatrix.mk 0 0 []) = emptyMatrixStr ∧ emptyMatrixStr ≠ "" :=
  ⟨((C7_bitmatrix_str (BitMatrix.mk 1 1 [[true]])).1 (by decide) (by decide)).1,
   ((C7_bitmatrix_str (BitMatrix.mk 0 0 [])).2 (Or.inl rfl)).1,
   ((C7_bitmatrix_str (BitMatrix.mk 0 0 [])).2 (Or.inl rfl)).2.1⟩

/-- C10: `encode` called without explicit `width`/`height` invokes the
engine's generation entry point with 29 as both size hints (the
signature defaults), for every data string and format tag. -/
theorem C10_encode_default_hints (e : Engine) (data format : String) :
    encodeDefault e data format = e.encode data format 29 29 [] := rfl

theorem convertL_width (s : PILImage) : (s.convert "L").width = s.width := by
  unfold PILImage.convert
  rw [if_pos rfl]

theorem convertL_height (s : PILImage) : (s.convert "L").height = s.height := by
  unfold PILImage.convert
  rw [if_pos rfl]

/-- C5: on both local pixel-extraction paths (PIL image input and
admissible numpy input) the canonical buffer handed to the raw-luma
entry point has exactly `width * height` entries, one byte-sized luma
sample per pixel. -/
theorem C5_luma_buffer_invariant (img : PILImage) (a : NDArray) (hints : Hints)
    (himg : img.WF) (ha : a.WF) (hdt : a.dtype = "uint8")
    (hsh : a.ndim = 2 ∨ (a.ndim = 3 ∧ (a.shape.getD 2 0 = 3 ∨ a.shape.getD 2 0 = 4))) :
    (∃ buf, decode (.pil img) hints = .engine (.lumaPixels buf img.width img.height hints) ∧
      buf.length = img.width * img.height ∧ ∀ b ∈ buf, b < 256) ∧
    (∃ buf w h, decode (.nparray a) hints = .engine (.lumaPixels buf w h hints) ∧
      buf.length = w * h ∧ ∀ b ∈ buf, b < 256) := by
  constructor
  · obtain ⟨hlen, hbd⟩ := tobytes_spec (pilCanon img) (fun x y => pilCanon_px img himg x y)
    refine ⟨(pilCanon img).tobytes, ?_, ?_, hbd⟩
    · show DecodeOutcome.engine
        (.lumaPixels (pilCanon img).tobytes (pilCanon img).width (pilCanon img).height hints) = _
      rw [pilCanon_width, pilCanon_height]
    · rw [hlen, pilCanon_width, pilCanon_height]
  · rcases hsh with h2 | ⟨h3, hc⟩
    · obtain ⟨hlen, hbd⟩ := tobytes_spec (fromarray2d a) (fun x y => fromarray2d_px a ha x y)
      refine ⟨(fromarray2d a).tobytes, (fromarray2d a).width, (fromarray2d a).height,
        ?_, hlen, hbd⟩
      simp only [decode]
      rw [if_neg (not_not_intro hdt), if_pos h2]
    · obtain ⟨hlen, hbd⟩ := tobytes_spec ((fromarray3d a).convert "L")
        (fun x y => fromarray3dL_px a ha x y)
      refine ⟨((fromarray3d a).convert "L").tobytes, ((fromarray3d a).convert "L").width,
        ((fromarray3d a).convert "L").height, ?_, hlen, hbd⟩
      simp only [decode]
      rw [if_neg (not_not_intro hdt), if_neg (by omega), if_pos ⟨h3, hc⟩]

/-- Witness for C5 at a 2×2 `L` image and a 1×2×4 RGBA uint8 array. -/
theorem C5_luma_buffer_invariant_witness :
    (∃ buf, decode (.pil (PILImage.mk "L" 2 2 fun _ _ => .one 9)) [] =
        .engine (.lumaPixels buf 2 2 []) ∧
      buf.length = 2 * 2 ∧ ∀ b ∈ buf, b < 256) ∧
    (∃ buf w h,
      decode (.nparray (NDArray.mk "uint8" [1, 2, 4] [1, 2, 3, 4, 5, 6, 7, 8])) [] =
        .engine (.lumaPixels buf w h []) ∧
      buf.length = w * h ∧ ∀ b ∈ buf, b < 256) :=
  C5_luma_buffer_invariant (PILImage.mk "L" 2 2 fun _ _ => .one 9)
    (NDArray.mk "uint8" [1, 2, 4] [1, 2, 3, 4, 5, 6, 7, 8]) []
    ⟨fun _ x y => ⟨9, rfl⟩, fun _ _ => by simp [Pixel.bounded, Pixel.bytes]⟩
    (by simp [NDArray.WF]) rfl (Or.inr ⟨rfl, Or.inr rfl⟩)

/-- C9: grayscale reduction of an RGB or RGBA uint8 array is
deterministic - a single luma buffer is obtained from the array alone,
and every decode call on that array hands exactly that buffer (with the
array's width and height) to the raw-luma entry point. -/
theorem C9_grayscale_deterministic (a : NDArray) (hdt : a.dtype = "uint8")
    (h3 : a.ndim = 3) (hc : a.shape.getD 2 0 = 3 ∨ a.shape.getD 2 0 = 4) :
    ∃ buf, ∀ hints : Hints,
      decode (.nparray a) hints =
        .engine (.lumaPixels buf (a.shape.getD 1 0) (a.shape.getD 0 0) hints) := by
  refine ⟨((fromarray3d a).convert "L").tobytes, fun hints => ?_⟩
  simp only [decode]
  rw [if_neg (not_not_intro hdt), if_neg (by omega), if_pos ⟨h3, hc⟩]
  rw [convertL_width, convertL_height, fromarray3d_width, fromarray3d_height]

/-- Witness for C9 at a 1×1×3 RGB uint8 array, instantiated at two
distinct hints mappings. -/
theorem C9_grayscale_deterministic_witness :
    ∃ buf,
      decode (.nparray (NDArray.mk "uint8" [1, 1, 3] [255, 0, 0])) [] =
        .engine (.lumaPixels buf 1 1 []) ∧
      decode (.nparray (NDArray.mk "uint8" [1, 1, 3] [255, 0, 0]))
          [("TRY_HARDER", .str "true")] =
        .engine (.lumaPixels buf 1 1 [("TRY_HARDER", .str "true")]) := by
  obtain ⟨buf, hbuf⟩ := C9_grayscale_deterministic
    (NDArray.mk "uint8" [1, 1, 3] [255, 0, 0]) rfl rfl (Or.inl rfl)
  exact ⟨buf, hbuf [], hbuf [("TRY_HARDER", .str "true")]⟩

/-- C4: when the hints mapping carries the well-known format-restriction
key with a format name outside the known enumeration, the translation
layer fails fast with an error instead of forwarding; a mapping with
only unrecognized keys is forwarded verbatim. -/
theorem C4_hints_translation (known : List String) (hints : Hints) :
    ((∃ names n, ("POSSIBLE_FORMATS", HintValue.formats names) ∈ hints ∧
        n ∈ names ∧ known.contains n = false) →
      ∃ msg, translateHints known hints = .error msg) ∧
    ((∀ kv ∈ hints, kv.1 ≠ "POSSIBLE_FORMATS") →
      translateHints known hints = .ok hints) := by
  constructor
  · rintro ⟨names, n, hmem, hn, hnk⟩
    unfold translateHints
    cases hfind : firstUnknownFormat known hints with
    | some s => exact ⟨_, rfl⟩
    | none =>
        exfalso
        rw [firstUnknownFormat, List.findSome?_eq_none_iff] at hfind
        have hkv := hfind _ hmem
        rw [if_pos rfl] at hkv
        rw [List.find?_eq_none] at hkv
        exact hkv n hn (by simpa using hnk)
  · intro hall
    unfold translateHints
    have hnone : firstUnknownFormat known hints = none := by
      rw [firstUnknownFormat, List.findSome?_eq_none_iff]
      intro kv hkv
      rw [if_neg (hall kv hkv)]
    rw [hnone]

/-- Witness for C4: a restriction to an unknown format name errors;
hints with only an unrecognized key pass through unchanged. -/
theorem C4_hints_translation_witness :
    (∃ msg, translateHints ["QR_CODE", "CODE_128"]
        [("POSSIBLE_FORMATS", HintValue.formats ["NOT_A_FORMAT"])] = .error msg) ∧
    translateHints ["QR_CODE", "CODE_128"] [("TRY_HARDER", HintValue.str "true")] =
      .ok [("TRY_HARDER", HintValue.str "true")] :=
  ⟨(C4_hints_translation ["QR_CODE", "CODE_128"]
      [("POSSIBLE_FORMATS", HintValue.formats ["NOT_A_FORMAT"])]).1
      ⟨["NOT_A_FORMAT"], "NOT_A_FORMAT", by simp, by simp, by decide⟩,
   (C4_hints_translation ["QR_CODE", "CODE_128"]
      [("TRY_HARDER", HintValue.str "true")]).2 (by decide)⟩

/-- C3: the displayable-image round trip.  If the engine's raw-luma
entry point recovers `text` from the luma rendering of the module grid
the engine's generation entry point produced for `text` (the engine's
round-trip contract), then `decode(encode(text, format).to_pil_image())`
returns a result whose text equals `text`: the adapter's rendering and
re-canonicalization hand the engine exactly that luma buffer. -/
theorem C3_roundtrip (e : Engine) (text format : String) (hints : Hints)
    (m : BitMatrix) (r : RXingResult)
    (henc : encodeDefault e text format = .ok m)
    (hw : 0 < m.width) (hh : 0 < m.height)
    (hdec : e.decodeLumaPixels (lumaRender m) m.width m.height hints = .ok r)
    (htext : r.text = text) :
    ∃ res, decodeRun e (.pil (bitmatrix_to_pil_image m)) hints = .ok res ∧
      res.text = text := by
  refine ⟨r, ?_, htext⟩
  unfold decodeRun
  rw [decode_bitmatrix_render m (by omega) hints]
  exact hdec

/-- Witness for C3 with a one-module engine that encodes any text as the
single dark module and decodes the matching luma buffer back to it. -/
theorem C3_roundtrip_witness :
    encodeDefault
        (Engine.mk (fun _ _ => .error "NotFoundException")
          (fun _ _ => .error "NotFoundException")
          (fun buf w h _ =>
            if buf = [0] ∧ w = 1 ∧ h = 1 then .ok (RXingResult.mk "hi" "qrcode" [])
            else .error "NotFoundException")
          (fun _ _ _ _ _ => .ok (BitMatrix.mk 1 1 [[true]])))
        "hi" "QR_CODE" = .ok (BitMatrix.mk 1 1 [[true]]) ∧
    ∃ res,
      decodeRun
          (Engine.mk (fun _ _ => .error "NotFoundException")
            (fun _ _ => .error "NotFoundException")
            (fun buf w h _ =>
              if buf = [0] ∧ w = 1 ∧ h = 1 then .ok (RXingResult.mk "hi" "qrcode" [])
              else .error "NotFoundException")
            (fun _ _ _ _ _ => .ok (BitMatrix.mk 1 1 [[true]])))
          (.pil (bitmatrix_to_pil_image (BitMatrix.mk 1 1 [[true]]))) [] = .ok res ∧
      res.text = "hi" :=
  ⟨rfl,
   C3_roundtrip
     (Engine.mk (fun _ _ => .error "NotFoundException")
       (fun _ _ => .error "NotFoundException")
       (fun buf w h _ =>
         if buf = [0] ∧ w = 1 ∧ h = 1 then .ok (RXingResult.mk "hi" "qrcode" [])
         else .error "NotFoundException")
       (fun _ _ _ _ _ => .ok (BitMatrix.mk 1 1 [[true]])))
     "hi" "QR_CODE" [] (BitMatrix.mk 1 1 [[true]]) (RXingResult.mk "hi" "qrcode" [])
     rfl (by decide) (by decide) rfl rfl⟩

end Rxing
